import Mathlib

/-!
Shallow embedding of the core of the AI-Trending-Bot engine (src/index.js):
history tracker, risk cache, feature builder, multi-oracle score aggregator,
hotness ranker and new-pool alert deduplicator.  JavaScript numbers are
modelled by exact rationals; the non-finite values the source can produce
(division by zero, a missing creation timestamp) are modelled explicitly by
the JSNum type, and the single irrational the source computes (Math.sqrt in
the volatility formula) is kept symbolic in the sqrtTimes constructor.
-/

namespace TrendingBot

/-- Model of a JavaScript number as produced by the arithmetic in the source:
either an exact rational, the symbolic value c * sqrt(r) (used only with
r > 0, produced by the volatility formula), positive or negative infinity,
or NaN. -/
inductive JSNum where
  | num : ℚ → JSNum
  | sqrtTimes : ℚ → ℚ → JSNum
  | posInf : JSNum
  | negInf : JSNum
  | nan : JSNum
deriving DecidableEq, Repr

/-- JavaScript division a / b on finite operands: division by zero yields
NaN (0/0) or a signed infinity, never a rational. -/
def jsDiv (a b : ℚ) : JSNum :=
  if b = 0 then
    (if a = 0 then .nan else if 0 < a then .posInf else .negInf)
  else .num (a / b)

/-- Whether c * sqrt(r) > q, decided by sign analysis and squaring.
Only used with r ≥ 0. -/
def sqrtTimesGtQ (c r q : ℚ) : Bool :=
  if c = 0 ∨ r = 0 then decide (q < 0)
  else if 0 < c then (if q < 0 then true else decide (q ^ 2 < c ^ 2 * r))
  else (if 0 ≤ q then false else decide (c ^ 2 * r < q ^ 2))

/-- JavaScript comparison x > q (false when x is NaN). -/
def JSNum.gtQ : JSNum → ℚ → Bool
  | .num a, q => decide (q < a)
  | .sqrtTimes c r, q => sqrtTimesGtQ c r q
  | .posInf, _ => true
  | .negInf, _ => false
  | .nan, _ => false

/-- JavaScript comparison x < q (false when x is NaN). -/
def JSNum.ltQ : JSNum → ℚ → Bool
  | .num a, q => decide (a < q)
  | .sqrtTimes c r, q => sqrtTimesGtQ (-c) r (-q)
  | .posInf, _ => false
  | .negInf, _ => true
  | .nan, _ => false

/-- JavaScript comparison x <= q (false when x is NaN). -/
def JSNum.leQ (x : JSNum) (q : ℚ) : Bool :=
  if x = .nan then false else !(x.gtQ q)

/-- JavaScript comparison x >= q (false when x is NaN). -/
def JSNum.geQ (x : JSNum) (q : ℚ) : Bool :=
  if x = .nan then false else !(x.ltQ q)

/-- True exactly on the finite JSNum values (rationals and symbolic
square roots). -/
def JSNum.isFiniteB : JSNum → Bool
  | .num _ => true
  | .sqrtTimes _ _ => true
  | _ => false

/-- The non-finite JSNum values: NaN and the two infinities. -/
def JSNum.NonFinite (x : JSNum) : Prop :=
  x = .nan ∨ x = .posInf ∨ x = .negInf

instance : DecidablePred JSNum.NonFinite := fun x => by
  unfold JSNum.NonFinite; infer_instance

/-- The JavaScript idiom Number(x || d) applied to an optional numeric
field x: the default d is used both when x is absent and when x is 0
(0 is falsy). -/
def jsOr (o : Option ℚ) (d : ℚ) : ℚ :=
  match o with
  | none => d
  | some q => if q = 0 then d else q

/-- The JavaScript idiom x || d on an already-coerced rational. -/
def jsOrQ (o : Option ℚ) (d : ℚ) : ℚ :=
  match o with
  | none => d
  | some q => if q = 0 then d else q

-- ---------- HISTORY TRACKER (updateHistory / getHistoryStats) ----------

/-- One point of a history series: { t: Date.now(), v: vol24 }. -/
structure HistoryPoint where
  t : ℚ
  v : ℚ
deriving DecidableEq, Repr

/-- Embedding of updateHistory restricted to the series of one address:
push the new point, then shift (drop the oldest point) if the length now
exceeds the configured maximum. -/
def recordSeries (maxPts : ℕ) (s : List HistoryPoint) (t v : ℚ) :
    List HistoryPoint :=
  let s' := s ++ [⟨t, v⟩]
  if maxPts < s'.length then s'.tail else s'

/-- Result of getHistoryStats: { avg, trend, vola }. -/
structure HistoryStats where
  avg : ℚ
  trend : JSNum
  vola : JSNum
deriving DecidableEq, Repr

/-- The last 12 points of a series, as computed by arr.slice(-12). -/
def recentOf (arr : List HistoryPoint) : List HistoryPoint :=
  arr.drop (arr.length - 12)

/-- Arithmetic mean of the recorded values of a nonempty series (the
source only divides by the length after the empty guard). -/
def seriesAvg (arr : List HistoryPoint) : ℚ :=
  (arr.map (·.v)).sum / (arr.length : ℚ)

/-- Embedding of getHistoryStats on the series of one address.  The trend
is the JavaScript quotient (last - first) / first over the last 12 points,
with no guard against first = 0; the volatility is
sqrt(sum((v - avg)^2) / n) / avg * 100, with no guard against avg = 0. -/
def getHistoryStats (arr : List HistoryPoint) : HistoryStats :=
  if arr.isEmpty then ⟨0, .num 0, .num 0⟩
  else
    let avg := seriesAvg arr
    let recent := recentOf arr
    let trend :=
      if 1 < recent.length then
        jsDiv ((recent.getLastD ⟨0, 0⟩).v - (recent.headD ⟨0, 0⟩).v)
          (recent.headD ⟨0, 0⟩).v
      else .num 0
    let m2 := (arr.map (fun p => (p.v - avg) ^ 2)).sum / (arr.length : ℚ)
    let vola :=
      if 1 < arr.length then
        (if avg = 0 then (if m2 = 0 then .nan else .posInf)
         else if m2 = 0 then .num 0
         else .sqrtTimes (100 / avg) m2)
      else .num 0
    ⟨avg, trend, vola⟩

-- ---------- RISK CACHE (updateRiskCache / getCachedRisk) ----------

/-- Risk labels the oracles may report. -/
inductive Risk where
  | low
  | med
  | high
deriving DecidableEq, Repr

/-- One risk cache entry: { risk, updated: Date.now() }. -/
structure RiskEntry where
  risk : Risk
  updated : ℚ
deriving DecidableEq, Repr

/-- The risk cache: an insertion-ordered association list keyed by pool
address (a plain object in the source; the key type is kept generic, with
String used by the bot itself). -/
abbrev RC (K : Type) := List (K × RiskEntry)

/-- Lookup in an association list (first entry with the given key). -/
def alookup {K B : Type} [DecidableEq K] (l : List (K × B)) (k : K) :
    Option B :=
  (l.find? (fun kv => kv.1 = k)).map (·.2)

/-- The eviction threshold hard-coded in updateRiskCache. -/
def RISK_MAX : ℕ := 1000

/-- The retained entry count hard-coded in updateRiskCache. -/
def RISK_RETAIN : ℕ := 500

/-- The read freshness window (one hour in milliseconds). -/
def RISK_TTL_MS : ℚ := 3600000

/-- JavaScript object assignment riskCache[address] = entry: replace the
value in place when the key exists, append otherwise. -/
def riskUpsert {K : Type} [DecidableEq K] (c : RC K) (k : K)
    (e : RiskEntry) : RC K :=
  if c.any (fun kv => kv.1 = k) then
    c.map (fun kv => if kv.1 = k then (k, e) else kv)
  else c ++ [(k, e)]

/-- Descending order on the last-updated timestamp, the comparator used by
the eviction sort. -/
def entryGE {K : Type} (a b : K × RiskEntry) : Prop :=
  b.2.updated ≤ a.2.updated

instance {K : Type} : DecidableRel (entryGE (K := K)) := fun a b => by
  unfold entryGE; infer_instance

instance {K : Type} : IsTotal (K × RiskEntry) entryGE :=
  ⟨fun a b => (le_total b.2.updated a.2.updated).imp id id⟩

instance {K : Type} : IsTrans (K × RiskEntry) entryGE :=
  ⟨fun _ _ _ h1 h2 => le_trans h2 h1⟩

/-- The eviction step of updateRiskCache: sort the entries descending by
the updated timestamp, keep the first RISK_RETAIN keys, and delete every
other key (deletion keeps the surviving entries in their original object
order). -/
def evictRetain {K : Type} [DecidableEq K] (c1 : RC K) : RC K :=
  c1.filter (fun kv => decide (kv.1 ∈
    ((c1.insertionSort entryGE).take RISK_RETAIN).map Prod.fst))

/-- Embedding of updateRiskCache: upsert the entry, then, when the entry
count exceeds RISK_MAX, evict down to the RISK_RETAIN most recently
updated keys. -/
def updateRiskCache {K : Type} [DecidableEq K] (c : RC K) (k : K)
    (risk : Risk) (now : ℚ) : RC K :=
  let c1 := riskUpsert c k ⟨risk, now⟩
  if RISK_MAX < c1.length then evictRetain c1 else c1

/-- Embedding of getCachedRisk: the entry risk when present and younger
than one hour, none otherwise. -/
def getCachedRisk {K : Type} [DecidableEq K] (c : RC K) (k : K)
    (now : ℚ) : Option Risk :=
  match alookup c k with
  | some e => if now - e.updated < RISK_TTL_MS then some e.risk else none
  | none => none

-- ---------- POOL SNAPSHOTS AND CONFIGURATION ----------

/-- The snapshot attributes the engine reads.  Numeric fields are optional
rationals (none models an absent field); pool_created_at is the parsed
creation timestamp in epoch milliseconds, with none modelling a missing or
unparsable timestamp (whose JavaScript parse is NaN). -/
structure PoolAttributes where
  address : String
  name : String
  reserve_in_usd : Option ℚ
  volume_h24 : Option ℚ
  market_cap_usd : Option ℚ
  fdv_usd : Option ℚ
  price_change_h24 : Option ℚ
  buys_h24 : Option ℚ
  sells_h24 : Option ℚ
  buyers_h24 : Option ℚ
  pool_created_at : Option ℚ
deriving DecidableEq, Repr

/-- One pool snapshot as fetched from the listing API. -/
structure Pool where
  attributes : PoolAttributes
deriving DecidableEq, Repr

/-- The environment-derived configuration the embedded core reads. -/
structure Config where
  MIN_LIQ_USD : ℚ
  MIN_VOL24_USD : ℚ
  MIN_BUYS_24H : ℚ
  NEW_POOL_MAX_MIN : ℚ
  NEW_POOL_MIN_LIQ_USD : ℚ
  NEW_POOL_MIN_VOL24_USD : ℚ
  NEW_POOL_MIN_BUYERS : ℚ
  NEW_ALERT_COOLDOWN_MIN : ℚ
  AI_WEIGHT : ℚ
  HISTORY_MAX_POINTS : ℕ
  TRENDING_SIZE : ℕ
deriving Repr

/-- The defaults declared at the top of src/index.js. -/
def defaultConfig : Config :=
  { MIN_LIQ_USD := 3000
    MIN_VOL24_USD := 500
    MIN_BUYS_24H := 2
    NEW_POOL_MAX_MIN := 10
    NEW_POOL_MIN_LIQ_USD := 3000
    NEW_POOL_MIN_VOL24_USD := 500
    NEW_POOL_MIN_BUYERS := 3
    NEW_ALERT_COOLDOWN_MIN := 30
    AI_WEIGHT := 2000
    HISTORY_MAX_POINTS := 4032
    TRENDING_SIZE := 8 }

/-- The age of a pool in minutes: (now - createdAt) / 60000, NaN when the
creation timestamp is missing or unparsable. -/
def ageMinutes (now : ℚ) (createdAt : Option ℚ) : JSNum :=
  match createdAt with
  | none => .nan
  | some t => .num ((now - t) / 60000)

/-- Embedding of isGoodPool. -/
def isGoodPool (cfg : Config) (now : ℚ) (p : Pool) : Bool :=
  let a := p.attributes
  let liq := jsOr a.reserve_in_usd 0
  let vol := jsOr a.volume_h24 0
  let buys := jsOr a.buys_h24 0
  decide (cfg.MIN_LIQ_USD ≤ liq) && decide (cfg.MIN_VOL24_USD ≤ vol) &&
    decide (cfg.MIN_BUYS_24H ≤ buys) &&
    (ageMinutes now a.pool_created_at).geQ 1

-- ---------- FEATURE BUILDER (buildFeatures) ----------

/-- The mutable state of the bot process that outlives one cycle. -/
structure BotState where
  riskCache : RC String
  history : String → List HistoryPoint
  lastVolumes : String → Option ℚ
  alerted : String → ℚ

/-- The FeatureVector returned by buildFeatures. -/
structure Feature where
  address : String
  name : String
  liq_usd : ℚ
  fdv_usd : ℚ
  age_min : JSNum
  vol24_now : ℚ
  vol24_delta_5m : ℚ
  vol24_delta_rate : ℚ
  change24_abs : ℚ
  buy_sell_ratio : JSNum
  buyers24 : ℚ
  buys24 : ℚ
  sells24 : ℚ
  hist_avg : ℚ
  hist_trend : JSNum
  hist_vola : JSNum
  vol_vs_avg_pct : ℚ
  risk_level : Risk
  link : String
deriving DecidableEq, Repr

/-- Embedding of buildFeatures.  The prior volume is
Number(lastVolumes.get(address) || volNow), so a recorded prior volume of
0 falls back to the current volume exactly like a never-observed address;
the rate divides only when the prior volume is strictly positive. -/
def buildFeatures (st : BotState) (now : ℚ) (p : Pool) : Feature :=
  let a := p.attributes
  let volNow := jsOr a.volume_h24 0
  let volPrev := jsOrQ (st.lastVolumes a.address) volNow
  let delta := volNow - volPrev
  let rate := if 0 < volPrev then delta / volPrev else 0
  let liq := jsOr a.reserve_in_usd 0
  let fdv := jsOr a.market_cap_usd (jsOr a.fdv_usd 0)
  let change := jsOr a.price_change_h24 0
  let buys := jsOr a.buys_h24 0
  let sells := jsOr a.sells_h24 0
  let buyers := jsOr a.buyers_h24 0
  let histStats := getHistoryStats (st.history a.address)
  { address := a.address
    name := a.name
    liq_usd := liq
    fdv_usd := fdv
    age_min := ageMinutes now a.pool_created_at
    vol24_now := volNow
    vol24_delta_5m := delta
    vol24_delta_rate := rate
    change24_abs := |change|
    buy_sell_ratio := jsDiv (buys + 1) (sells + 1)
    buyers24 := buyers
    buys24 := buys
    sells24 := sells
    hist_avg := histStats.avg
    hist_trend := histStats.trend
    hist_vola := histStats.vola
    vol_vs_avg_pct :=
      if histStats.avg = 0 then 0
      else (volNow - histStats.avg) / histStats.avg * 100
    risk_level := (getCachedRisk st.riskCache a.address now).getD .med
    link := "https://www.geckoterminal.com/besc-hyperchain/pools/" ++
      a.address }

-- ---------- MULTI-ORACLE SCORE AGGREGATOR (getAIScores) ----------

/-- The 24h outlook labels. -/
inductive Pred where
  | bullish
  | bearish
  | sideways
deriving DecidableEq, Repr

/-- One oracle record for one address.  A score that is not a number is
modelled as none (the source filters with typeof == number); risk and
prediction model the falsy-filter with none; an absent tag list is the
empty list; an absent reason is the empty string (both falsy). -/
structure OracleRecord where
  score : Option ℚ
  risk : Option Risk
  tags : List String
  reason : String
  prediction : Option Pred
deriving DecidableEq, Repr

/-- One oracle response: a mapping from address to record; a failed or
unconfigured oracle is the constant-none mapping. -/
abbrev OracleMap := String → Option OracleRecord

/-- The three configured oracles of one cycle. -/
structure Oracles where
  openai : OracleMap
  claude : OracleMap
  groq : OracleMap

/-- The merged ConsensusRecord for one address. -/
structure ConsensusRecord where
  score : ℚ
  risk : Risk
  tags : List String
  reason : String
  prediction : Pred
  disagree : Bool
  confidence : ℚ
deriving DecidableEq, Repr

/-- De-duplication keeping the first occurrence, as the JavaScript
spread of a Set does. -/
def dedupFirst (l : List String) : List String :=
  l.foldl (fun acc t => if t ∈ acc then acc else acc ++ [t]) []

/-- Majority vote as the source computes it: sort ascending by the number
of occurrences, then pop the last element. -/
def majorityPick {α : Type} [DecidableEq α] (l : List α) : Option α :=
  (l.insertionSort (fun a b => l.count a ≤ l.count b)).getLast?

/-- Maximum of a score list via Math.max over a nonempty spread (0 on the
empty list, which the source never reaches). -/
def maxScore (l : List ℚ) : ℚ :=
  match l with
  | [] => 0
  | s :: rest => rest.foldl max s

/-- Minimum of a score list via Math.min over a nonempty spread. -/
def minScore (l : List ℚ) : ℚ :=
  match l with
  | [] => 0
  | s :: rest => rest.foldl min s

/-- The numeric scores the three oracles returned for one address. -/
def oracleScores (o : Oracles) (addr : String) : List ℚ :=
  [o.openai addr, o.claude addr, o.groq addr].filterMap
    (fun r => r.bind (·.score))

/-- The reconciliation of getAIScores for one address: none when no oracle
returned a numeric score, otherwise the merged record with the clamped
mean score, majority risk and prediction, capped tag union, joined and
truncated reason, the disagreement flag and the confidence. -/
def consensusFor (o : Oracles) (addr : String) : Option ConsensusRecord :=
  let recs := [o.openai addr, o.claude addr, o.groq addr]
  let scores := oracleScores o addr
  if scores.isEmpty then none
  else
    let avg := scores.sum / (scores.length : ℚ)
    let risks := recs.filterMap (fun r => r.bind (·.risk))
    let tags :=
      (dedupFirst (recs.flatMap (fun r => (r.map (·.tags)).getD []))).take 5
    let preds := recs.filterMap (fun r => r.bind (·.prediction))
    let reasons :=
      (recs.filterMap (fun r => r.map (·.reason))).filter (fun s => s ≠ "")
    some
      { score := min 100 (max 0 avg)
        risk := (majorityPick risks).getD .med
        tags := tags
        reason := (String.intercalate " | " reasons).take 50
        prediction := (majorityPick preds).getD .sideways
        disagree := decide (20 < maxScore scores - minScore scores)
        confidence := 100 - (maxScore scores - minScore scores) }

/-- Embedding of the merge loop of getAIScores: one consensus entry per
scored input address, in input order. -/
def getAIScores (o : Oracles) (items : List Feature) :
    List (String × ConsensusRecord) :=
  items.filterMap
    (fun f => (consensusFor o f.address).map (fun r => (f.address, r)))

/-- Embedding of the risk-cache side effect of getAIScores: each merged
record writes its majority risk into the cache, in input order. -/
def getAIScoresCache (o : Oracles) (items : List Feature) (c : RC String)
    (now : ℚ) : RC String :=
  items.foldl
    (fun acc f =>
      match consensusFor o f.address with
      | some r => updateRiskCache acc f.address r.risk now
      | none => acc)
    c

-- ---------- HOTNESS RANKER (baseHotness / postTrending scoring) ----------

/-- Embedding of baseHotness with the constants hard-coded in the
source.  The JSNum comparisons reproduce the JavaScript comparisons on the
possibly non-finite history statistics and age. -/
def baseHotness (f : Feature) : ℚ :=
  let burstBoost := max 0 f.vol24_delta_5m * 3
  let buyerBoost := f.buyers24 * 100
  let recencyBonus :=
    if f.age_min.ltQ 60 then (1000 : ℚ)
    else if f.age_min.ltQ 360 then 500 else 0
  let trendBoost :=
    if f.hist_trend.gtQ (1 / 10) then f.vol24_now * (2 / 10) else 0
  let volaPenalty :=
    if f.hist_vola.gtQ 50 then f.vol24_now * (15 / 100) else 0
  let sellPenalty :=
    if f.buy_sell_ratio.ltQ (3 / 10) then f.vol24_now * (3 / 10) else 0
  let riskAdjust : ℚ :=
    if f.risk_level = .low then 12 / 10
    else if f.risk_level = .high then 7 / 10 else 1
  (f.vol24_now + burstBoost + buyerBoost + recencyBonus + trendBoost -
      volaPenalty - sellPenalty) * riskAdjust

/-- The consensus score consumed by the ranker:
aiMap[f.address]?.score || 0. -/
def consensusScoreOf (aiMap : List (String × ConsensusRecord))
    (addr : String) : ℚ :=
  jsOrQ ((alookup aiMap addr).map (·.score)) 0

/-- The final ranking score of postTrending:
baseHotness(f) + aiScore * AI_WEIGHT. -/
def finalScore (cfg : Config) (aiMap : List (String × ConsensusRecord))
    (f : Feature) : ℚ :=
  baseHotness f + consensusScoreOf aiMap f.address * cfg.AI_WEIGHT

-- ---------- NEW-POOL ALERT DEDUPLICATOR (checkNewPools) ----------

/-- The qualification predicate of checkNewPools. -/
def newPoolQual (cfg : Config) (now : ℚ) (p : Pool) : Bool :=
  let a := p.attributes
  (ageMinutes now a.pool_created_at).leQ cfg.NEW_POOL_MAX_MIN &&
    decide (cfg.NEW_POOL_MIN_LIQ_USD ≤ jsOr a.reserve_in_usd 0) &&
    decide (cfg.NEW_POOL_MIN_VOL24_USD ≤ jsOr a.volume_h24 0) &&
    decide (cfg.NEW_POOL_MIN_BUYERS ≤ jsOr a.buyers_h24 0)

/-- Embedding of checkNewPools: for each qualifying candidate, emit an
alert and stamp the address with the current time exactly when more than
the cooldown window has elapsed since the stored last-alert time (0 when
never alerted).  Returns the emitted addresses in order plus the updated
last-alert map. -/
def checkNewPools (cfg : Config) (now : ℚ) (alerted : String → ℚ)
    (candidates : List Pool) : List String × (String → ℚ) :=
  (candidates.filter (newPoolQual cfg now)).foldl
    (fun acc p =>
      let k := p.attributes.address
      if cfg.NEW_ALERT_COOLDOWN_MIN * 60000 < now - acc.2 k then
        (acc.1 ++ [k], Function.update acc.2 k now)
      else acc)
    ([], alerted)

-- ---------- ONE CYCLE (postTrending) ----------

/-- The per-cycle outputs of postTrending that the chat transport
consumes. -/
structure CycleOut where
  alerts : List String
  feats : List Feature
  aiMap : List (String × ConsensusRecord)
  top : List (Feature × ℚ)

/-- Embedding of one successful postTrending cycle: filter candidates,
run the alert deduplicator, build all feature vectors (reading the risk
cache as loaded at cycle start), record history, aggregate the oracle
scores (writing this cycle of consensus risks into the cache), rank, and
update the prior-volume map. -/
def runCycle (cfg : Config) (st : BotState) (pools : List Pool)
    (o : Oracles) (now : ℚ) : CycleOut × BotState :=
  let candidates := pools.filter (isGoodPool cfg now)
  let alertStep := checkNewPools cfg now st.alerted candidates
  let feats := candidates.map (buildFeatures st now)
  let history' :=
    feats.foldl
      (fun (h : String → List HistoryPoint) f =>
        Function.update h f.address
          (recordSeries cfg.HISTORY_MAX_POINTS (h f.address) now
            f.vol24_now))
      st.history
  let aiMap := getAIScores o feats
  let riskCache' := getAIScoresCache o feats st.riskCache now
  let scored := feats.map (fun f => (f, finalScore cfg aiMap f))
  let top :=
    (scored.insertionSort (fun a b => b.2 ≤ a.2)).take cfg.TRENDING_SIZE
  let lastVolumes' :=
    candidates.foldl
      (fun (m : String → Option ℚ) p =>
        Function.update m p.attributes.address
          (some (jsOr p.attributes.volume_h24 0)))
      st.lastVolumes
  (⟨alertStep.1, feats, aiMap, top⟩,
    ⟨riskCache', history', lastVolumes', alertStep.2⟩)

-- ---------- THEOREMS ----------

/-- N successive record calls on one address, starting from the given
series. -/
def recordAll (maxPts : ℕ) (pts : List (ℚ × ℚ)) : List HistoryPoint :=
  pts.foldl (fun s tv => recordSeries maxPts s tv.1 tv.2) []

/-- The HistoryPoint a record call with the given time and value
appends. -/
def mkPoint (tv : ℚ × ℚ) : HistoryPoint :=
  ⟨tv.1, tv.2⟩

lemma drop_succ_append_tail {α : Type} (l r : List α) (k : ℕ)
    (h : l ≠ []) : (l ++ r).drop (k + 1) = (l.tail ++ r).drop k := by
  obtain ⟨a, l', rfl⟩ := List.exists_cons_of_ne_nil h
  simp

lemma recordSeries_foldl (maxPts : ℕ) :
    ∀ (pts : List (ℚ × ℚ)) (s : List HistoryPoint), s.length ≤ maxPts →
      pts.foldl (fun acc tv => recordSeries maxPts acc tv.1 tv.2) s =
        (s ++ pts.map mkPoint).drop (s.length + pts.length - maxPts) := by
  intro pts
  induction pts with
  | nil =>
    intro s hs
    simp only [List.foldl_nil, List.map_nil, List.append_nil,
      List.length_nil]
    have h0 : s.length + 0 - maxPts = 0 := by omega
    rw [h0, List.drop_zero]
  | cons tv rest ih =>
    intro s hs
    rw [List.foldl_cons]
    by_cases hc : s.length = maxPts
    · have hstep : recordSeries maxPts s tv.1 tv.2 =
          (s ++ [mkPoint tv]).tail := by
        simp only [recordSeries, mkPoint]
        rw [if_pos (by simp; omega)]
      have hlen : ((s ++ [mkPoint tv]).tail).length = maxPts := by
        simp [hc]
      rw [hstep, ih _ (le_of_eq hlen), hlen]
      simp only [List.length_cons, List.map_cons]
      have hidx : maxPts + rest.length - maxPts = rest.length := by omega
      have hidx2 : s.length + (rest.length + 1) - maxPts =
          rest.length + 1 := by omega
      rw [hidx, hidx2]
      have hassoc : s ++ mkPoint tv :: List.map mkPoint rest =
          (s ++ [mkPoint tv]) ++ List.map mkPoint rest := by simp
      rw [hassoc, drop_succ_append_tail _ _ _ (by simp)]
    · have hlt : s.length < maxPts := lt_of_le_of_ne hs hc
      have hstep : recordSeries maxPts s tv.1 tv.2 =
          s ++ [mkPoint tv] := by
        simp only [recordSeries, mkPoint]
        rw [if_neg (by simp; omega)]
      have hlen : (s ++ [mkPoint tv]).length = s.length + 1 := by simp
      rw [hstep, ih _ (by simp; omega), hlen]
      simp only [List.length_cons, List.map_cons]
      have hassoc : s ++ mkPoint tv :: List.map mkPoint rest =
          (s ++ [mkPoint tv]) ++ List.map mkPoint rest := by simp
      rw [hassoc]
      congr 1
      omega

/-- Claim C8: starting from an empty series, after N record calls with
N greater than the maximum length, the series has length exactly the
maximum and consists of the most recent recorded values in oldest-first
insertion order, the oldest points evicted FIFO. -/
theorem history_fifo_after_overflow (maxPts : ℕ) (pts : List (ℚ × ℚ))
    (h : maxPts < pts.length) :
    (recordAll maxPts pts).length = maxPts ∧
    recordAll maxPts pts =
      (pts.map mkPoint).drop
        (pts.length - maxPts) := by
  have key := recordSeries_foldl maxPts pts [] (by simp)
  simp only [List.nil_append, List.length_nil, Nat.zero_add] at key
  refine ⟨?_, by rw [recordAll, key]⟩
  rw [recordAll, key, List.length_drop, List.length_map]
  omega

/-- Witness for claim C8 at a concrete run of three records with maximum
length two. -/
theorem history_fifo_after_overflow_witness :
    2 < ([((0 : ℚ), (10 : ℚ)), (1, 11), (2, 12)] : List (ℚ × ℚ)).length ∧
    ((recordAll 2 [(0, 10), (1, 11), (2, 12)]).length = 2 ∧
      recordAll 2 [(0, 10), (1, 11), (2, 12)] =
        (([(0, 10), (1, 11), (2, 12)] : List (ℚ × ℚ)).map
          mkPoint).drop
          (([((0 : ℚ), (10 : ℚ)), (1, 11), (2, 12)] : List (ℚ × ℚ)).length
            - 2)) :=
  ⟨by decide, history_fifo_after_overflow 2 _ (by decide)⟩

/-- Claim C10: one record call evicts at most one point: it preserves the
length bound when the series is within the bound, and on a series already
longer than the bound it keeps the length unchanged (still above the
bound), never re-establishing the invariant. -/
theorem record_preserves_length_bound (maxPts : ℕ)
    (s : List HistoryPoint) (t v : ℚ) :
    (s.length ≤ maxPts → (recordSeries maxPts s t v).length ≤ maxPts) ∧
    (maxPts < s.length →
      (recordSeries maxPts s t v).length = s.length) := by
  refine ⟨fun h => ?_, fun h => ?_⟩ <;>
    · simp only [recordSeries]
      split_ifs with hc <;> simp_all <;> omega

/-- Witness for claim C10: within the bound the bound persists, above the
bound the length stays put. -/
theorem record_preserves_length_bound_witness :
    ((recordSeries 2 [⟨0, 1⟩, ⟨1, 2⟩] 2 3).length ≤ 2) ∧
    ((recordSeries 2 [⟨0, 1⟩, ⟨1, 2⟩, ⟨2, 3⟩, ⟨3, 4⟩] 4 5).length = 4) :=
  ⟨(record_preserves_length_bound 2 [⟨0, 1⟩, ⟨1, 2⟩] 2 3).1 (by decide),
    (record_preserves_length_bound 2 [⟨0, 1⟩, ⟨1, 2⟩, ⟨2, 3⟩, ⟨3, 4⟩]
      4 5).2 (by decide)⟩

/-- Claim C2 counterexample: on the two-point series with both values 0,
the earliest of the recent points has value 0 and the series average is 0,
yet neither the trend nor the volatility is 0 — both are NaN, because the
source divides without a zero guard. -/
theorem stats_zero_guards_counterexample :
    2 ≤ ([⟨0, 0⟩, ⟨1, 0⟩] : List HistoryPoint).length ∧
    ((recentOf [⟨0, 0⟩, ⟨1, 0⟩]).headD ⟨0, 0⟩).v = 0 ∧
    seriesAvg [⟨0, 0⟩, ⟨1, 0⟩] = 0 ∧
    (getHistoryStats [⟨0, 0⟩, ⟨1, 0⟩]).trend ≠ .num 0 ∧
    (getHistoryStats [⟨0, 0⟩, ⟨1, 0⟩]).vola ≠ .num 0 := by
  refine ⟨by norm_num, by norm_num [recentOf], by norm_num [seriesAvg],
    ?_, ?_⟩ <;>
    norm_num [getHistoryStats, recentOf, seriesAvg, jsDiv] <;> decide

/-- Claim C2 (amended): the stats of an empty or absent series are all
zero; the trend is 0 whenever fewer than 2 points exist, but when at least
2 points exist and the earliest of the most recent 12 has value 0 the
trend is non-finite (NaN or a signed infinity), not 0; the volatility is 0
whenever the series has at most one point, but when at least 2 points
exist and the series average is 0 the volatility is non-finite, not 0. -/
theorem stats_zero_guards (arr : List HistoryPoint) :
    (arr = [] → getHistoryStats arr = ⟨0, .num 0, .num 0⟩) ∧
    (arr.length < 2 → (getHistoryStats arr).trend = .num 0) ∧
    (2 ≤ arr.length → ((recentOf arr).headD ⟨0, 0⟩).v = 0 →
      ((getHistoryStats arr).trend).NonFinite) ∧
    (arr.length ≤ 1 → (getHistoryStats arr).vola = .num 0) ∧
    (2 ≤ arr.length → seriesAvg arr = 0 →
      ((getHistoryStats arr).vola).NonFinite) := by
  refine ⟨fun he => by rw [he]; rfl, fun h2 => ?_, fun h2 h0 => ?_,
    fun h1 => ?_, fun h2 h0 => ?_⟩
  · rcases arr with _ | ⟨p, _ | ⟨q, rest⟩⟩
    · rfl
    · simp [getHistoryStats, recentOf]
    · exact absurd h2 (by simp)
  · have hne : arr.isEmpty = false := by
      rcases arr with _ | _
      · simp at h2
      · rfl
    have hrl : 1 < (recentOf arr).length := by
      rw [recentOf, List.length_drop]
      omega
    simp only [getHistoryStats, hne, Bool.false_eq_true, if_false, hrl,
      if_true, h0, sub_zero]
    unfold jsDiv JSNum.NonFinite
    split_ifs <;> simp_all
  · rcases arr with _ | ⟨p, _ | ⟨q, rest⟩⟩
    · rfl
    · simp [getHistoryStats]
    · exact absurd h1 (by simp)
  · have hne : arr.isEmpty = false := by
      rcases arr with _ | _
      · simp at h2
      · rfl
    have hgt : 1 < arr.length := by omega
    simp only [getHistoryStats, hne, Bool.false_eq_true, if_false, hgt,
      if_true, h0]
    unfold JSNum.NonFinite
    split_ifs <;> simp_all

/-- Witness for claim C2: a two-point series whose earliest recent value
is 1 exercises the amended statement at a concrete input. -/
theorem stats_zero_guards_witness :
    (([⟨0, 1⟩] : List HistoryPoint).length < 2 ∧
      (getHistoryStats [⟨0, 1⟩]).trend = .num 0) ∧
    (2 ≤ ([⟨0, 0⟩, ⟨1, 3⟩] : List HistoryPoint).length ∧
      ((recentOf [⟨0, 0⟩, ⟨1, 3⟩]).headD ⟨0, 0⟩).v = 0 ∧
      ((getHistoryStats [⟨0, 0⟩, ⟨1, 3⟩]).trend).NonFinite) :=
  ⟨⟨by norm_num, (stats_zero_guards [⟨0, 1⟩]).2.1 (by norm_num)⟩,
    ⟨by norm_num, by norm_num [recentOf],
      (stats_zero_guards [⟨0, 0⟩, ⟨1, 3⟩]).2.2.1 (by norm_num)
        (by norm_num [recentOf])⟩⟩

-- ---------- FIXTURES FOR CONCRETE WITNESSES ----------

/-- A snapshot passing every candidate filter under the default
configuration. -/
def testAttrs : PoolAttributes :=
  { address := "pool1"
    name := "P1"
    reserve_in_usd := some 5000
    volume_h24 := some 500
    market_cap_usd := some 10000
    fdv_usd := some 10000
    price_change_h24 := some 5
    buys_h24 := some 10
    sells_h24 := some 4
    buyers_h24 := some 6
    pool_created_at := some 0 }

/-- The test pool wrapping testAttrs. -/
def testPool : Pool := ⟨testAttrs⟩

/-- The empty bot state: empty risk cache, no history, no recorded prior
volumes, no alerts ever sent. -/
def emptyState : BotState :=
  { riskCache := []
    history := fun _ => []
    lastVolumes := fun _ => none
    alerted := fun _ => 0 }

/-- A bot state whose prior-volume map records 0 for the test pool. -/
def zeroPriorState : BotState :=
  { emptyState with
    lastVolumes := fun a => if a = "pool1" then some 0 else none }

/-- Claim C4 counterexample: the test pool has current volume 500 and a
recorded prior volume of 0, yet delta is 0 and not the true difference
500, because Number(lastVolumes.get(address) || volNow) treats a recorded
0 exactly like a never-observed address. -/
theorem delta_zero_prior_counterexample :
    zeroPriorState.lastVolumes "pool1" = some 0 ∧
    (buildFeatures zeroPriorState 60000 testPool).vol24_now = 500 ∧
    (buildFeatures zeroPriorState 60000 testPool).vol24_delta_5m = 0 ∧
    (buildFeatures zeroPriorState 60000 testPool).vol24_delta_5m ≠
      500 - 0 := by
  refine ⟨by simp [zeroPriorState, emptyState], ?_, ?_, ?_⟩ <;>
    norm_num [buildFeatures, testPool, testAttrs, zeroPriorState,
      emptyState, jsOr, jsOrQ]

/-- Claim C4 (amended): delta is current volume minus prior volume, where
the prior volume falls back to the current volume both when the address
was never observed and when its recorded prior volume is 0 (so delta is 0
in both cases); for a recorded nonzero prior volume delta is the true
difference; rate is delta over prior volume when the prior volume is
strictly positive, else 0. -/
theorem delta_rate_formulas (st : BotState) (now : ℚ) (p : Pool) :
    (buildFeatures st now p).vol24_delta_5m =
      jsOr p.attributes.volume_h24 0 -
        jsOrQ (st.lastVolumes p.attributes.address)
          (jsOr p.attributes.volume_h24 0) ∧
    (buildFeatures st now p).vol24_delta_rate =
      (if 0 < jsOrQ (st.lastVolumes p.attributes.address)
          (jsOr p.attributes.volume_h24 0) then
        (buildFeatures st now p).vol24_delta_5m /
          jsOrQ (st.lastVolumes p.attributes.address)
            (jsOr p.attributes.volume_h24 0)
      else 0) ∧
    (st.lastVolumes p.attributes.address = none →
      (buildFeatures st now p).vol24_delta_5m = 0) ∧
    (st.lastVolumes p.attributes.address = some 0 →
      (buildFeatures st now p).vol24_delta_5m = 0) ∧
    (∀ q, st.lastVolumes p.attributes.address = some q → q ≠ 0 →
      (buildFeatures st now p).vol24_delta_5m =
        jsOr p.attributes.volume_h24 0 - q) := by
  refine ⟨rfl, rfl, fun h => ?_, fun h => ?_, fun q h hq => ?_⟩
  · simp [buildFeatures, jsOrQ, h]
  · simp [buildFeatures, jsOrQ, h]
  · simp [buildFeatures, jsOrQ, h, hq]

/-- Witness for claim C4 at concrete states: a never-observed address and
a recorded nonzero prior volume. -/
theorem delta_rate_formulas_witness :
    (emptyState.lastVolumes "pool1" = none ∧
      (buildFeatures emptyState 60000 testPool).vol24_delta_5m = 0) ∧
    ((buildFeatures
        { emptyState with
          lastVolumes := fun a => if a = "pool1" then some 200 else none }
        60000 testPool).vol24_delta_5m = jsOr testAttrs.volume_h24 0 -
          200) :=
  ⟨⟨rfl, (delta_rate_formulas emptyState 60000 testPool).2.2.1 rfl⟩,
    (delta_rate_formulas
      { emptyState with
        lastVolumes := fun a => if a = "pool1" then some 200 else none }
      60000 testPool).2.2.2.2 200 rfl (by norm_num)⟩

/-- A snapshot with every optional attribute absent. -/
def bareAttrs : PoolAttributes :=
  { address := "pool2"
    name := "P2"
    reserve_in_usd := none
    volume_h24 := none
    market_cap_usd := none
    fdv_usd := none
    price_change_h24 := none
    buys_h24 := none
    sells_h24 := none
    buyers_h24 := none
    pool_created_at := none }

/-- Claim C5 counterexample: on a snapshot with a missing creation
timestamp the feature builder returns ageMinutes = NaN, which is not a
finite number. -/
theorem age_min_nan_counterexample :
    bareAttrs.pool_created_at = none ∧
    (buildFeatures emptyState 60000 ⟨bareAttrs⟩).age_min = .nan ∧
    ((buildFeatures emptyState 60000 ⟨bareAttrs⟩).age_min).isFiniteB =
      false := by
  decide

/-- Claim C5 (amended): the feature builder is a total function; every
missing numeric input is coerced to 0; volVsAvgPct is 0 when the history
average is 0 and rate is 0 when the prior volume is not positive — but
ageMinutes is NaN, not a finite number, when the creation timestamp is
missing or unparsable (it is finite whenever the timestamp parses). -/
theorem features_total_coercions (st : BotState) (now : ℚ) (p : Pool) :
    (p.attributes.pool_created_at = none →
      (buildFeatures st now p).age_min = .nan) ∧
    (∀ t, p.attributes.pool_created_at = some t →
      (buildFeatures st now p).age_min = .num ((now - t) / 60000)) ∧
    (p.attributes.volume_h24 = none →
      (buildFeatures st now p).vol24_now = 0) ∧
    (p.attributes.reserve_in_usd = none →
      (buildFeatures st now p).liq_usd = 0) ∧
    (p.attributes.buys_h24 = none →
      (buildFeatures st now p).buys24 = 0) ∧
    (p.attributes.sells_h24 = none →
      (buildFeatures st now p).sells24 = 0) ∧
    (p.attributes.buyers_h24 = none →
      (buildFeatures st now p).buyers24 = 0) ∧
    (p.attributes.price_change_h24 = none →
      (buildFeatures st now p).change24_abs = 0) ∧
    ((getHistoryStats (st.history p.attributes.address)).avg = 0 →
      (buildFeatures st now p).vol_vs_avg_pct = 0) ∧
    (¬ 0 < jsOrQ (st.lastVolumes p.attributes.address)
        (jsOr p.attributes.volume_h24 0) →
      (buildFeatures st now p).vol24_delta_rate = 0) := by
  refine ⟨fun h => ?_, fun t h => ?_, fun h => ?_, fun h => ?_,
    fun h => ?_, fun h => ?_, fun h => ?_, fun h => ?_, fun h => ?_,
    fun h => ?_⟩
  · simp [buildFeatures, ageMinutes, h]
  · simp [buildFeatures, ageMinutes, h]
  · simp [buildFeatures, jsOr, h]
  · simp [buildFeatures, jsOr, h]
  · simp [buildFeatures, jsOr, h]
  · simp [buildFeatures, jsOr, h]
  · simp [buildFeatures, jsOr, h]
  · simp [buildFeatures, jsOr, h]
  · simp [buildFeatures, h]
  · simp [buildFeatures, h]

/-- Witness for claim C5 at the all-absent snapshot and at the test
snapshot with a parsed creation timestamp. -/
theorem features_total_coercions_witness :
    ((buildFeatures emptyState 60000 ⟨bareAttrs⟩).age_min = .nan ∧
      (buildFeatures emptyState 60000 ⟨bareAttrs⟩).vol24_now = 0 ∧
      (buildFeatures emptyState 60000 ⟨bareAttrs⟩).liq_usd = 0 ∧
      (buildFeatures emptyState 60000 ⟨bareAttrs⟩).vol_vs_avg_pct = 0) ∧
    (buildFeatures emptyState 60000 testPool).age_min =
      .num ((60000 - 0) / 60000) :=
  ⟨⟨(features_total_coercions emptyState 60000 ⟨bareAttrs⟩).1 rfl,
      (features_total_coercions emptyState 60000 ⟨bareAttrs⟩).2.2.1 rfl,
      (features_total_coercions emptyState 60000 ⟨bareAttrs⟩).2.2.2.1 rfl,
      (features_total_coercions emptyState 60000
        ⟨bareAttrs⟩).2.2.2.2.2.2.2.2.1 rfl⟩,
    (features_total_coercions emptyState 60000 testPool).2.1 0 rfl⟩

-- Evaluation lemmas for the JSNum comparisons on finite values.

lemma gtQ_num (a q : ℚ) : (JSNum.num a).gtQ q = decide (q < a) := rfl

lemma ltQ_num (a q : ℚ) : (JSNum.num a).ltQ q = decide (a < q) := rfl

lemma leQ_num (a q : ℚ) : (JSNum.num a).leQ q = decide (a ≤ q) := by
  simp [JSNum.leQ, JSNum.gtQ, ← decide_not, not_lt]

lemma geQ_num (a q : ℚ) : (JSNum.num a).geQ q = decide (q ≤ a) := by
  simp [JSNum.geQ, JSNum.ltQ, ← decide_not, not_lt]

-- ---------- CLAIM C3: ALERT COOLDOWN ----------

/-- A configuration whose cooldown window is one minute, for concrete
cooldown scenarios. -/
def shortCooldownConfig : Config :=
  { defaultConfig with NEW_ALERT_COOLDOWN_MIN := 1 }

/-- A pool created at 60000 ms that passes every new-pool threshold while
young enough. -/
def youngPool : Pool :=
  ⟨{ testAttrs with address := "fresh", pool_created_at := some 60000 }⟩

/-- Claim C3 counterexample: with cooldown window W = 60000 ms, a first
qualifying event at t1 = 70000 emits an alert, and a second qualifying
event at t2 = 130000 — exactly W after the first — emits none, so exactly
one alert is emitted in total where the claim demands two. -/
theorem alert_cooldown_counterexample :
    newPoolQual shortCooldownConfig 70000 youngPool = true ∧
    newPoolQual shortCooldownConfig 130000 youngPool = true ∧
    (130000 : ℚ) - 70000 =
      shortCooldownConfig.NEW_ALERT_COOLDOWN_MIN * 60000 ∧
    (checkNewPools shortCooldownConfig 70000 (fun _ => 0)
      [youngPool]).1 = ["fresh"] ∧
    (checkNewPools shortCooldownConfig 130000
      (checkNewPools shortCooldownConfig 70000 (fun _ => 0)
        [youngPool]).2 [youngPool]).1 = [] := by
  have hq1 : newPoolQual shortCooldownConfig 70000 youngPool = true := by
    norm_num [newPoolQual, shortCooldownConfig, defaultConfig, youngPool,
      testAttrs, ageMinutes, jsOr, leQ_num]
  have hq2 : newPoolQual shortCooldownConfig 130000 youngPool = true := by
    norm_num [newPoolQual, shortCooldownConfig, defaultConfig, youngPool,
      testAttrs, ageMinutes, jsOr, leQ_num]
  refine ⟨hq1, hq2, by norm_num [shortCooldownConfig, defaultConfig],
    ?_, ?_⟩ <;>
    norm_num [checkNewPools, newPoolQual, shortCooldownConfig,
      defaultConfig, youngPool, testAttrs, ageMinutes, jsOr, leQ_num,
      Function.update]

/-- Claim C3 (amended): with cooldown window W, a first qualifying event
at a time t1 past the window (measured from the epoch default 0) emits one
alert and stamps the address with t1; a second qualifying event at t2 ≥ t1
emits a second alert and restamps the address with t2 exactly when
strictly more than W elapsed since t1 — when at most W elapsed (including
exactly W) it is suppressed and the stamp is left at t1.  The last-alert
timestamp is set on every emission and only on emission. -/
theorem alert_cooldown (cfg : Config) (p : Pool) (t1 t2 : ℚ)
    (hq1 : newPoolQual cfg t1 p = true)
    (hq2 : newPoolQual cfg t2 p = true)
    (h1 : cfg.NEW_ALERT_COOLDOWN_MIN * 60000 < t1) :
    (checkNewPools cfg t1 (fun _ => 0) [p]).1 = [p.attributes.address] ∧
    (checkNewPools cfg t1 (fun _ => 0) [p]).2 p.attributes.address =
      t1 ∧
    (cfg.NEW_ALERT_COOLDOWN_MIN * 60000 < t2 - t1 →
      (checkNewPools cfg t2
          (checkNewPools cfg t1 (fun _ => 0) [p]).2 [p]).1 =
        [p.attributes.address] ∧
      (checkNewPools cfg t2
          (checkNewPools cfg t1 (fun _ => 0) [p]).2 [p]).2
        p.attributes.address = t2) ∧
    (¬ cfg.NEW_ALERT_COOLDOWN_MIN * 60000 < t2 - t1 →
      (checkNewPools cfg t2
          (checkNewPools cfg t1 (fun _ => 0) [p]).2 [p]).1 = [] ∧
      (checkNewPools cfg t2
          (checkNewPools cfg t1 (fun _ => 0) [p]).2 [p]).2
        p.attributes.address = t1) := by
  have hrun1 : checkNewPools cfg t1 (fun _ => 0) [p] =
      ([p.attributes.address],
        Function.update (fun _ => (0 : ℚ)) p.attributes.address t1) := by
    simp [checkNewPools, hq1, h1]
  refine ⟨by rw [hrun1], by rw [hrun1]; simp, fun hgap => ?_,
    fun hgap => ?_⟩
  · rw [hrun1]
    simp [checkNewPools, hq2, Function.update_same, hgap]
  · rw [hrun1]
    simp [checkNewPools, hq2, Function.update_same, hgap]

/-- Witness for claim C3: the one-minute-cooldown scenario with the
second event strictly after the window emits twice, restamping at t2. -/
theorem alert_cooldown_witness :
    newPoolQual shortCooldownConfig 70000 youngPool = true ∧
    newPoolQual shortCooldownConfig 130001 youngPool = true ∧
    shortCooldownConfig.NEW_ALERT_COOLDOWN_MIN * 60000 < (70000 : ℚ) ∧
    shortCooldownConfig.NEW_ALERT_COOLDOWN_MIN * 60000 <
      (130001 : ℚ) - 70000 ∧
    (checkNewPools shortCooldownConfig 130001
        (checkNewPools shortCooldownConfig 70000 (fun _ => 0)
          [youngPool]).2 [youngPool]).1 = ["fresh"] := by
  have hq1 : newPoolQual shortCooldownConfig 70000 youngPool = true := by
    norm_num [newPoolQual, shortCooldownConfig, defaultConfig, youngPool,
      testAttrs, ageMinutes, jsOr, leQ_num]
  have hq2 : newPoolQual shortCooldownConfig 130001 youngPool = true := by
    norm_num [newPoolQual, shortCooldownConfig, defaultConfig, youngPool,
      testAttrs, ageMinutes, jsOr, leQ_num]
  have h1 : shortCooldownConfig.NEW_ALERT_COOLDOWN_MIN * 60000 <
      (70000 : ℚ) := by
    norm_num [shortCooldownConfig, defaultConfig]
  have hgap : shortCooldownConfig.NEW_ALERT_COOLDOWN_MIN * 60000 <
      (130001 : ℚ) - 70000 := by
    norm_num [shortCooldownConfig, defaultConfig]
  exact ⟨hq1, hq2, h1, hgap,
    ((alert_cooldown shortCooldownConfig youngPool 70000 130001 hq1 hq2
      h1).2.2.1 hgap).1⟩

-- ---------- CLAIM C6: FINAL SCORE ----------

/-- Claim C6: the final ranking score is baseHotness plus the consensus
score weighted by AI_WEIGHT, with the consensus score contributing 0 when
the address is absent from the consensus map; for the same feature vector
under two consensus maps the final scores differ by exactly the score
difference times AI_WEIGHT. -/
theorem final_score_formula (cfg : Config)
    (aiMap : List (String × ConsensusRecord)) (f : Feature) :
    (alookup aiMap f.address = none →
      finalScore cfg aiMap f = baseHotness f + 0 * cfg.AI_WEIGHT) ∧
    (∀ r, alookup aiMap f.address = some r →
      finalScore cfg aiMap f = baseHotness f +
        r.score * cfg.AI_WEIGHT) ∧
    (∀ m1 m2 : List (String × ConsensusRecord),
      finalScore cfg m1 f - finalScore cfg m2 f =
        (consensusScoreOf m1 f.address -
          consensusScoreOf m2 f.address) * cfg.AI_WEIGHT) := by
  refine ⟨fun h => ?_, fun r h => ?_, fun m1 m2 => ?_⟩
  · simp [finalScore, consensusScoreOf, h, jsOrQ]
  · by_cases hs : r.score = 0 <;>
      simp [finalScore, consensusScoreOf, h, jsOrQ, hs]
  · unfold finalScore
    ring

/-- A consensus map holding a score of 40 for the test pool. -/
def testAiMap : List (String × ConsensusRecord) :=
  [("pool1",
    { score := 40
      risk := .low
      tags := []
      reason := ""
      prediction := .bullish
      disagree := false
      confidence := 100 })]

/-- Witness for claim C6 at the test feature vector, both present in and
absent from the consensus map. -/
theorem final_score_formula_witness :
    (alookup testAiMap (buildFeatures emptyState 60000 testPool).address
      = some
        { score := 40
          risk := .low
          tags := []
          reason := ""
          prediction := .bullish
          disagree := false
          confidence := 100 }) ∧
    finalScore defaultConfig testAiMap
        (buildFeatures emptyState 60000 testPool) =
      baseHotness (buildFeatures emptyState 60000 testPool) +
        (40 : ℚ) * defaultConfig.AI_WEIGHT ∧
    finalScore defaultConfig []
        (buildFeatures emptyState 60000 testPool) =
      baseHotness (buildFeatures emptyState 60000 testPool) +
        0 * defaultConfig.AI_WEIGHT := by
  have hsome : alookup testAiMap
      (buildFeatures emptyState 60000 testPool).address = some
        { score := 40
          risk := .low
          tags := []
          reason := ""
          prediction := .bullish
          disagree := false
          confidence := 100 } := by
    simp [testAiMap, alookup, buildFeatures, testPool, testAttrs]
  have hnone : alookup ([] : List (String × ConsensusRecord))
      (buildFeatures emptyState 60000 testPool).address = none := rfl
  exact ⟨hsome,
    (final_score_formula defaultConfig testAiMap
      (buildFeatures emptyState 60000 testPool)).2.1 _ hsome,
    (final_score_formula defaultConfig []
      (buildFeatures emptyState 60000 testPool)).1 hnone⟩

-- ---------- CLAIM C1: CONSENSUS SCORE AND CONFIDENCE ----------

lemma alookup_getAIScores (o : Oracles) (addr : String) :
    ∀ items : List Feature,
      alookup (getAIScores o items) addr =
        if addr ∈ items.map (·.address) then consensusFor o addr
        else none := by
  intro items
  induction items with
  | nil => simp [getAIScores, alookup]
  | cons f rest ih =>
    cases hc : consensusFor o f.address with
    | none =>
      have hstep : getAIScores o (f :: rest) = getAIScores o rest := by
        simp [getAIScores, List.filterMap_cons, hc]
      rw [hstep, ih]
      by_cases ha : f.address = addr
      · subst ha
        by_cases hm : f.address ∈ rest.map (·.address) <;>
          simp [hm, hc]
      · have hmem : (addr ∈ (f :: rest).map (·.address)) ↔
            (addr ∈ rest.map (·.address)) := by
          simp only [List.map_cons, List.mem_cons]
          constructor
          · rintro (h | h)
            · exact absurd h.symm ha
            · exact h
          · exact Or.inr
        simp only [hmem]
    | some r =>
      have hstep : getAIScores o (f :: rest) =
          (f.address, r) :: getAIScores o rest := by
        simp [getAIScores, List.filterMap_cons, hc]
      rw [hstep]
      by_cases ha : f.address = addr
      · subst ha
        have hfind : alookup ((f.address, r) :: getAIScores o rest)
            f.address = some r := by
          simp [alookup, List.find?_cons]
        rw [hfind, if_pos (by simp)]
        exact hc.symm
      · have hfind : alookup ((f.address, r) :: getAIScores o rest)
            addr = alookup (getAIScores o rest) addr := by
          simp [alookup, List.find?_cons, ha]
        rw [hfind, ih]
        have hmem : (addr ∈ (f :: rest).map (·.address)) ↔
            (addr ∈ rest.map (·.address)) := by
          simp only [List.map_cons, List.mem_cons]
          constructor
          · rintro (h | h)
            · exact absurd h.symm ha
            · exact h
          · exact Or.inr
        simp only [hmem]

/-- Claim C1: an address scored by no oracle is absent from the merged
consensus map; an address scored by at least one oracle is present, its
score is the arithmetic mean of the numeric scores clamped to [0, 100]
(hence within [0, 100]), and its confidence is exactly 100 minus the
spread (maximum minus minimum score). -/
theorem consensus_mean_confidence (o : Oracles) (items : List Feature)
    (addr : String) (hmem : addr ∈ items.map (·.address)) :
    (oracleScores o addr = [] →
      alookup (getAIScores o items) addr = none) ∧
    (oracleScores o addr ≠ [] →
      (alookup (getAIScores o items) addr).isSome) ∧
    (∀ r, alookup (getAIScores o items) addr = some r →
      r.score = min 100 (max 0 ((oracleScores o addr).sum /
        ((oracleScores o addr).length : ℚ))) ∧
      0 ≤ r.score ∧ r.score ≤ 100 ∧
      r.confidence = 100 -
        (maxScore (oracleScores o addr) -
          minScore (oracleScores o addr))) := by
  rw [alookup_getAIScores, if_pos hmem]
  refine ⟨fun he => ?_, fun hne => ?_, fun r hr => ?_⟩
  · simp [consensusFor, he]
  · simp [consensusFor, hne]
  · have hne : ¬(oracleScores o addr).isEmpty := by
      intro he
      rw [consensusFor] at hr
      simp [he] at hr
    rw [consensusFor] at hr
    simp only [hne, Bool.false_eq_true, if_false, Option.some_inj] at hr
    subst hr
    refine ⟨rfl, ?_, ?_, rfl⟩
    · exact le_min (by norm_num) (le_max_left 0 _)
    · exact min_le_left 100 _

/-- An oracle answering with score 10 for the test pool. -/
def oracleA : OracleMap := fun a =>
  if a = "pool1" then
    some { score := some 10
           risk := some .low
           tags := ["gem"]
           reason := "strong"
           prediction := some .bullish }
  else none

/-- An oracle answering with score 40 for the test pool. -/
def oracleB : OracleMap := fun a =>
  if a = "pool1" then
    some { score := some 40
           risk := some .med
           tags := ["pump"]
           reason := ""
           prediction := some .bullish }
  else none

/-- The oracle trio used by the concrete aggregation witness: two
responding oracles and one failed oracle. -/
def testOracles : Oracles :=
  { openai := oracleA
    claude := oracleB
    groq := fun _ => none }

/-- Witness for claim C1: with oracle scores 10 and 40 for the test pool,
the merged record carries score 25 ( = clamp(mean) ) and confidence
70 ( = 100 - spread ). -/
theorem consensus_mean_confidence_witness :
    ("pool1" ∈ ([buildFeatures emptyState 60000 testPool].map
      (·.address))) ∧
    oracleScores testOracles "pool1" = [10, 40] ∧
    (∀ r, alookup (getAIScores testOracles
        [buildFeatures emptyState 60000 testPool]) "pool1" = some r →
      r.score = min 100 (max 0 ((oracleScores testOracles "pool1").sum /
        ((oracleScores testOracles "pool1").length : ℚ))) ∧
      0 ≤ r.score ∧ r.score ≤ 100 ∧
      r.confidence = 100 -
        (maxScore (oracleScores testOracles "pool1") -
          minScore (oracleScores testOracles "pool1"))) := by
  have hmem : "pool1" ∈ ([buildFeatures emptyState 60000 testPool].map
      (·.address)) := by
    simp [buildFeatures, testPool, testAttrs]
  exact ⟨hmem,
    by simp [oracleScores, testOracles, oracleA, oracleB],
    (consensus_mean_confidence testOracles
      [buildFeatures emptyState 60000 testPool] "pool1" hmem).2.2⟩

-- ---------- CLAIM C9: ONE-CYCLE RISK LAG ----------

/-- Claim C9: every feature vector of a cycle is built against the risk
cache as it stood at cycle start — the cycle output features do not depend
on the oracle responses of the cycle (whose consensus risks are written
only after all features are built), and each feature consumes the cached
risk of a strictly earlier cycle, defaulting to med. -/
theorem risk_one_cycle_lag (cfg : Config) (st : BotState)
    (pools : List Pool) (o o' : Oracles) (now : ℚ) :
    ((runCycle cfg st pools o now).1.feats =
      (runCycle cfg st pools o' now).1.feats) ∧
    (∀ f ∈ (runCycle cfg st pools o now).1.feats,
      f.risk_level =
        (getCachedRisk st.riskCache f.address now).getD .med) := by
  constructor
  · rfl
  · intro f hf
    have hf' : f ∈ (pools.filter (isGoodPool cfg now)).map
        (buildFeatures st now) := hf
    obtain ⟨p, _, rfl⟩ := List.mem_map.1 hf'
    simp [buildFeatures]

/-- Witness for claim C9: a concrete one-pool cycle whose feature vector
reads the med default from the empty start-of-cycle cache, whatever the
oracles answer. -/
theorem risk_one_cycle_lag_witness :
    (buildFeatures emptyState 60000 testPool) ∈
      (runCycle defaultConfig emptyState [testPool] testOracles
        60000).1.feats ∧
    (buildFeatures emptyState 60000 testPool).risk_level =
      (getCachedRisk emptyState.riskCache
        (buildFeatures emptyState 60000 testPool).address 60000).getD
        .med := by
  have hgood : isGoodPool defaultConfig 60000 testPool = true := by
    norm_num [isGoodPool, defaultConfig, testPool, testAttrs, jsOr,
      ageMinutes, geQ_num]
  have hmem : (buildFeatures emptyState 60000 testPool) ∈
      (runCycle defaultConfig emptyState [testPool] testOracles
        60000).1.feats := by
    show (buildFeatures emptyState 60000 testPool) ∈
      (([testPool].filter (isGoodPool defaultConfig 60000)).map
        (buildFeatures emptyState 60000))
    simp [hgood]
  exact ⟨hmem,
    (risk_one_cycle_lag defaultConfig emptyState [testPool] testOracles
      testOracles 60000).2 _ hmem⟩

-- ---------- CLAIM C7: RISK CACHE BOUNDED EVICTION ----------

lemma riskUpsert_keys_nodup {K : Type} [DecidableEq K] (c : RC K)
    (k : K) (e : RiskEntry) (h : (c.map Prod.fst).Nodup) :
    ((riskUpsert c k e).map Prod.fst).Nodup := by
  rw [riskUpsert]
  split_ifs with hany
  · have hkeys : (c.map (fun kv => if kv.1 = k then (k, e) else kv)).map
        Prod.fst = c.map Prod.fst := by
      rw [List.map_map]
      apply List.map_congr_left
      intro kv _
      by_cases hk : kv.1 = k <;> simp [hk, Function.comp]
    rw [hkeys]
    exact h
  · rw [List.map_append, List.map_cons, List.map_nil]
    rw [List.nodup_append]
    refine ⟨h, List.nodup_singleton _, ?_⟩
    intro a ha hb
    rw [List.mem_singleton] at hb
    subst hb
    obtain ⟨kv, hkv, hkeq⟩ := List.mem_map.1 ha
    have : c.any (fun kv => kv.1 = a) = true :=
      List.any_eq_true.2 ⟨kv, hkv, by simp [hkeq]⟩
    exact hany this

lemma evict_facts {K : Type} [DecidableEq K] (c1 : RC K)
    (h1 : (c1.map Prod.fst).Nodup) :
    (evictRetain c1).length = min RISK_RETAIN c1.length ∧
    ((evictRetain c1).map Prod.fst).Nodup ∧
    (∀ kv ∈ evictRetain c1, ∀ kv' ∈ c1, kv' ∉ evictRetain c1 →
      kv'.2.updated ≤ kv.2.updated) := by
  have hperm : List.Perm (c1.insertionSort entryGE) c1 :=
    List.perm_insertionSort entryGE c1
  have hsorted : List.Sorted entryGE (c1.insertionSort entryGE) :=
    List.sorted_insertionSort entryGE c1
  set s := c1.insertionSort entryGE with hs
  set t := s.take RISK_RETAIN with ht
  set keep := t.map Prod.fst with hkeep
  have hsk : (s.map Prod.fst).Nodup := (hperm.map Prod.fst).nodup_iff.2 h1
  have hmemres : ∀ kv : K × RiskEntry,
      kv ∈ evictRetain c1 ↔ kv ∈ c1 ∧ kv.1 ∈ keep := by
    intro kv
    simp [evictRetain, List.mem_filter, ← hs, ← ht, ← hkeep]
  have hts : List.Sublist t s := List.take_sublist _ _
  have hknd : keep.Nodup := (hts.map Prod.fst).nodup hsk
  have hstep : s = t ++ s.drop RISK_RETAIN :=
    (List.take_append_drop _ _).symm
  have hcross0 : ∀ a ∈ t, ∀ b ∈ s.drop RISK_RETAIN, entryGE a b := by
    have hp : List.Pairwise entryGE (t ++ s.drop RISK_RETAIN) := by
      rw [← hstep]
      exact hsorted
    exact (List.pairwise_append.1 hp).2.2
  have hinT : ∀ kv, kv ∈ evictRetain c1 → kv ∈ t := by
    intro kv hkv
    obtain ⟨hc, hk⟩ := (hmemres kv).1 hkv
    have hks : kv ∈ s := hperm.mem_iff.2 hc
    rw [hstep] at hks
    rcases List.mem_append.1 hks with hkt | hkd
    · exact hkt
    · exfalso
      obtain ⟨kv2, hkv2t, hkv2eq⟩ := List.mem_map.1 hk
      have hnds : ((t ++ s.drop RISK_RETAIN).map Prod.fst).Nodup := by
        rw [← hstep]
        exact hsk
      rw [List.map_append] at hnds
      have hdisj := (List.nodup_append.1 hnds).2.2
      exact hdisj (hkv2eq ▸ List.mem_map_of_mem Prod.fst hkv2t)
        (List.mem_map_of_mem Prod.fst hkd)
  have hressub : List.Sublist (evictRetain c1) c1 := by
    simp only [evictRetain]
    exact List.filter_sublist _
  have hresknd : ((evictRetain c1).map Prod.fst).Nodup :=
    (hressub.map Prod.fst).nodup h1
  have hsub1 : (evictRetain c1).map Prod.fst ⊆ keep := by
    intro x hx
    obtain ⟨kv, hkv, rfl⟩ := List.mem_map.1 hx
    exact ((hmemres kv).1 hkv).2
  have hsub2 : keep ⊆ (evictRetain c1).map Prod.fst := by
    intro x hx
    obtain ⟨kv2, hkv2t, rfl⟩ := List.mem_map.1 hx
    have hkv2c : kv2 ∈ c1 := hperm.mem_iff.1 (hts.subset hkv2t)
    have hkv2r : kv2 ∈ evictRetain c1 :=
      (hmemres kv2).2 ⟨hkv2c, List.mem_map_of_mem Prod.fst hkv2t⟩
    exact List.mem_map_of_mem Prod.fst hkv2r
  have hlen : (evictRetain c1).length = keep.length := by
    have a1 := List.subperm_of_subset hresknd hsub1
    have a2 := List.subperm_of_subset hknd hsub2
    have hpl := (a1.antisymm a2).length_eq
    rw [List.length_map] at hpl
    exact hpl
  have hkeeplen : keep.length = min RISK_RETAIN c1.length := by
    rw [hkeep, List.length_map, ht, List.length_take, hs,
      List.length_insertionSort]
  refine ⟨by rw [hlen, hkeeplen], hresknd, ?_⟩
  intro kv hkv kv' hkv' hnot
  have hkvt : kv ∈ t := hinT kv hkv
  have hk1 : kv'.1 ∉ keep := by
    intro hk
    exact hnot ((hmemres kv').2 ⟨hkv', hk⟩)
  have hk's : kv' ∈ s := hperm.mem_iff.2 hkv'
  rw [hstep] at hk's
  rcases List.mem_append.1 hk's with h | h
  · exact absurd (List.mem_map_of_mem Prod.fst h) hk1
  · exact hcross0 kv hkvt kv' h

/-- Claim C7: a write keeps the key set duplicate-free and never leaves
more than RISK_MAX entries; when the write pushes the count above
RISK_MAX, exactly RISK_RETAIN entries survive (the most recently updated
ones), and every retained last-updated timestamp is at least every evicted
last-updated timestamp. -/
theorem risk_cache_bounded_eviction {K : Type} [DecidableEq K]
    (c : RC K) (k : K) (risk : Risk) (now : ℚ)
    (hnd : (c.map Prod.fst).Nodup) :
    ((updateRiskCache c k risk now).map Prod.fst).Nodup ∧
    (updateRiskCache c k risk now).length ≤ RISK_MAX ∧
    (RISK_MAX < (riskUpsert c k ⟨risk, now⟩).length →
      (updateRiskCache c k risk now).length = RISK_RETAIN ∧
      ∀ kv ∈ updateRiskCache c k risk now,
        ∀ kv' ∈ riskUpsert c k ⟨risk, now⟩,
          kv' ∉ updateRiskCache c k risk now →
            kv'.2.updated ≤ kv.2.updated) := by
  have h1 : ((riskUpsert c k ⟨risk, now⟩).map Prod.fst).Nodup :=
    riskUpsert_keys_nodup _ _ _ hnd
  by_cases hov : RISK_MAX < (riskUpsert c k ⟨risk, now⟩).length
  · have hres : updateRiskCache c k risk now =
        evictRetain (riskUpsert c k ⟨risk, now⟩) := by
      simp only [updateRiskCache, if_pos hov]
    obtain ⟨hlen, hnd2, hcross⟩ := evict_facts _ h1
    have hmin : min RISK_RETAIN (riskUpsert c k ⟨risk, now⟩).length =
        RISK_RETAIN := by
      apply min_eq_left
      have hle : RISK_RETAIN ≤ RISK_MAX := by
        norm_num [RISK_RETAIN, RISK_MAX]
      omega
    rw [hres]
    refine ⟨hnd2, ?_, fun _ => ⟨by rw [hlen, hmin], hcross⟩⟩
    rw [hlen, hmin]
    norm_num [RISK_RETAIN, RISK_MAX]
  · have hres : updateRiskCache c k risk now =
        riskUpsert c k ⟨risk, now⟩ := by
      simp only [updateRiskCache, if_neg hov]
    rw [hres]
    exact ⟨h1, by omega, fun h => absurd h hov⟩

/-- A 1001-entry cache (keyed abstractly by naturals) that a further
write pushes over the eviction threshold. -/
def bigCache : RC ℕ :=
  (List.range 1001).map (fun i => (i, ⟨Risk.med, (i : ℚ)⟩))

/-- Witness for claim C7: writing to the 1001-entry cache trips the
eviction branch and leaves exactly RISK_RETAIN entries. -/
theorem risk_cache_bounded_eviction_witness :
    ((bigCache.map Prod.fst).Nodup) ∧
    (RISK_MAX < (riskUpsert bigCache 0 ⟨Risk.low, 2000⟩).length) ∧
    ((updateRiskCache bigCache 0 Risk.low 2000).length = RISK_RETAIN) := by
  have hnd : (bigCache.map Prod.fst).Nodup := by
    rw [bigCache, List.map_map]
    have hid : (Prod.fst ∘ fun i : ℕ =>
        (i, (⟨Risk.med, (i : ℚ)⟩ : RiskEntry))) = id := by
      funext i
      rfl
    rw [hid, List.map_id]
    exact List.nodup_range 1001
  have hmm : ((0 : ℕ), (⟨Risk.med, (0 : ℚ)⟩ : RiskEntry)) ∈ bigCache := by
    rw [bigCache]
    exact List.mem_map.2 ⟨0, by simp, by norm_num⟩
  have hany : bigCache.any (fun kv => kv.1 = 0) = true :=
    List.any_eq_true.2 ⟨_, hmm, by simp⟩
  have hlen : (riskUpsert bigCache 0 ⟨Risk.low, 2000⟩).length = 1001 := by
    rw [riskUpsert, if_pos hany, List.length_map, bigCache,
      List.length_map, List.length_range]
  have hov : RISK_MAX <
      (riskUpsert bigCache 0 ⟨Risk.low, 2000⟩).length := by
    rw [hlen]
    norm_num [RISK_MAX]
  exact ⟨hnd, hov,
    ((risk_cache_bounded_eviction bigCache 0 Risk.low 2000 hnd).2.2
      hov).1⟩

end TrendingBot
